import Mathlib

/-!
Shallow embedding of the learnit-telegram-bot core (srs.py, queue_manager.py,
daily_manager.py, the grading slice of main.py) and proofs of the spec claims.
Python floats are modelled by exact rationals; the Python built-in round
(round half to even) is modelled by pyRound.
-/

namespace LearnIt

/-- Python round on a rational: nearest integer, ties to even
(models the built-in round applied to a float value). -/
def pyRound (x : ℚ) : ℤ :=
  let f : ℤ := ⌊x⌋
  let r : ℚ := x - f
  if r < 1/2 then f
  else if 1/2 < r then f + 1
  else if 2 ∣ f then f else f + 1

/-- Python round(x, 2): round to two decimal places. -/
def round2 (x : ℚ) : ℚ := (pyRound (x * 100) : ℚ) / 100

/-- A per-word progress dict. Keys may be absent (a fresh dict is all none);
srs.py reads each field with a dict .get default. The status strings written
by the code are "new", "learning" and "review". -/
structure WordProgress where
  ef : Option ℚ
  repetition : Option ℤ
  interval_days : Option ℤ
  next_review_ts : Option ℤ
  last_grade : Option ℤ
  last_review_ts : Option ℤ
  status : Option String
  deriving DecidableEq

/-- The empty progress dict, as returned by get_word_progress for an
unknown word. -/
def emptyProgress : WordProgress :=
  ⟨none, none, none, none, none, none, none⟩

/-- The record written by storage.init_word_progress for a new word. -/
def initWordRecord : WordProgress :=
  ⟨some 2.5, some 0, some 1, some 0, some 0, some 0, some "new"⟩

/-- SRSCalculator.MIN_EF -/
def MIN_EF : ℚ := 1.3

/-- SRSCalculator.INITIAL_EF -/
def INITIAL_EF : ℚ := 2.5

/-- SRSCalculator.SECONDS_PER_DAY -/
def SECONDS_PER_DAY : ℤ := 86400

/-- SRSCalculator.calculate_next_review from srs.py: the SM-2 update.
current_time stands for int(time.time()) at the call.
Returns the updated progress dict and the interval in days. -/
def calculate_next_review (current_progress : WordProgress) (grade : ℤ)
    (current_time : ℤ) : WordProgress × ℤ :=
  let ef0 : ℚ := current_progress.ef.getD INITIAL_EF
  let repetition0 : ℤ := current_progress.repetition.getD 0
  let ef1 : ℚ := ef0 + (0.1 - (5 - (grade : ℚ)) * (0.08 + (5 - (grade : ℚ)) * 0.02))
  let ef2 : ℚ := max ef1 MIN_EF
  let ris : ℤ × ℤ × String :=
    if grade < 3 then
      (0, 1, "learning")
    else
      let repetition := repetition0 + 1
      if repetition = 1 then (repetition, 1, "learning")
      else if repetition = 2 then (repetition, 6, "learning")
      else
        let previous_interval_days : ℤ := current_progress.interval_days.getD 6
        (repetition, pyRound ((previous_interval_days : ℚ) * ef2), "review")
  let interval_days : ℤ := ris.2.1
  let interval_seconds : ℤ := interval_days * SECONDS_PER_DAY
  let next_review_ts : ℤ := current_time + interval_seconds
  (⟨some (round2 ef2), some ris.1, some interval_days, some next_review_ts,
    some grade, some current_time, some ris.2.2⟩, interval_days)

/-- SRSCalculator.is_due from srs.py. -/
def is_due (word_progress : WordProgress) (current_time : ℤ) : Bool :=
  decide (word_progress.next_review_ts.getD 0 ≤ current_time)

/-- SRSCalculator.get_due_words from srs.py: the word ids whose
next_review_ts (default 0) has passed, in dict order. -/
def get_due_words (words_progress : List (String × WordProgress))
    (current_time : ℤ) : List String :=
  (words_progress.filter
    (fun wp => decide (wp.2.next_review_ts.getD 0 ≤ current_time))).map
    (fun wp => wp.1)

-- Sanity checks against the spec scenarios A, B and C (EF 2.5 throughout).
example : (calculate_next_review ⟨some 2.5, some 0, none, none, none, none, some "new"⟩ 4 1000).1.repetition = some 1 := by
  norm_num [calculate_next_review]

example : (calculate_next_review ⟨some 2.5, some 1, some 1, none, none, none, some "learning"⟩ 5 1000).2 = 6 := by
  norm_num [calculate_next_review]

example : (calculate_next_review ⟨some 2.5, some 2, some 6, none, none, none, some "learning"⟩ 4 1000).2 = 15 := by
  norm_num [calculate_next_review, INITIAL_EF, MIN_EF, pyRound, Int.floor_eq_iff]

example : (calculate_next_review ⟨some 2.5, some 2, some 6, none, none, none, some "learning"⟩ 4 1000).1.ef = some 2.5 := by
  norm_num [calculate_next_review, INITIAL_EF, MIN_EF, pyRound, round2, Int.floor_eq_iff]

/-! ## queue_manager.py: DueCardQueue

The per-user session dict. The code initializes a missing due_queue key to
the empty list and reads waiting_for_answer with default False, so a session
with plain fields and those defaults is equivalent to the dict. -/

/-- The per-user session state used by DueCardQueue. -/
structure Session where
  waiting_for_answer : Bool
  due_queue : List String
  deriving DecidableEq

/-- The session on first use (all dict reads take their defaults). -/
def initSession : Session := ⟨false, []⟩

/-- Where, if anywhere, the persistent store raises during an operation
(models the try/except blocks around storage calls in queue_manager.py). -/
inductive Fault where
  | fine
  | onRead
  | onWrite
  deriving DecidableEq

/-- DueCardQueue.add_to_queue with an explicit store fault: the Python body
is wrapped in try/except which logs and returns True on any exception, so a
read or write failure leaves the persisted session unchanged and the call
returns True. Returns (persisted session, return value). -/
def add_to_queue_f (fault : Fault) (s : Session) (word_id : String) :
    Session × Bool :=
  match fault with
  | .onRead => (s, true)
  | .fine =>
    if s.waiting_for_answer then
      if word_id ∈ s.due_queue then (s, false)
      else ({ s with due_queue := s.due_queue ++ [word_id] }, false)
    else
      ({ s with waiting_for_answer := true }, true)
  | .onWrite =>
    if s.waiting_for_answer then
      if word_id ∈ s.due_queue then (s, false)
      else (s, true)
    else
      (s, true)

/-- DueCardQueue.add_to_queue with a healthy store. -/
def add_to_queue (s : Session) (word_id : String) : Session × Bool :=
  add_to_queue_f .fine s word_id

/-- DueCardQueue.force_add_to_queue with a healthy store: appends the word
(deduplicated) without touching waiting_for_answer. -/
def force_add_to_queue (s : Session) (word_id : String) : Session :=
  if word_id ∈ s.due_queue then s
  else { s with due_queue := s.due_queue ++ [word_id] }

/-- DueCardQueue.get_next_from_queue with a healthy store: FIFO pop, keeps
the user busy while a card was available, frees the user otherwise. -/
def get_next_from_queue (s : Session) : Session × Option String :=
  match s.due_queue with
  | [] => ({ s with waiting_for_answer := false }, none)
  | next_word :: rest =>
    (⟨true, rest⟩, some next_word)

/-- DueCardQueue.mark_answered: delegates to get_next_from_queue; the Python
code returns next_word under an if next_word truthiness test, so an empty
string pops as None. -/
def mark_answered (s : Session) : Session × Option String :=
  let r := get_next_from_queue s
  match r.2 with
  | some w => if w = "" then (r.1, none) else (r.1, some w)
  | none => (r.1, none)

/-- DueCardQueue.clear_queue: empties the queue and frees the user. -/
def clear_queue (_s : Session) : Session :=
  ⟨false, []⟩

/-- One DueCardQueue operation, for reasoning about operation sequences. -/
inductive QOp where
  | offer (word_id : String)
  | force (word_id : String)
  | answered
  | reset
  deriving DecidableEq

/-- The session reached by running one operation (return values dropped). -/
def applyQOp (s : Session) : QOp → Session
  | .offer w => (add_to_queue s w).1
  | .force w => force_add_to_queue s w
  | .answered => (mark_answered s).1
  | .reset => clear_queue s

/-- The session reached by running a sequence of operations from s. -/
def runQOps (s : Session) (ops : List QOp) : Session :=
  ops.foldl applyQOp s

/-- The DeliveryQueue invariant of the spec: a non-empty pending queue only
while busy. -/
def queueInv (s : Session) : Prop :=
  s.due_queue ≠ [] → s.waiting_for_answer = true

instance (s : Session) : Decidable (queueInv s) := by
  unfold queueInv; infer_instance

/-! ## daily_manager.py: DailyLearningManager -/

/-- The daily_learning dict: each key may be absent; a missing dict is all
none. -/
structure DailyDict where
  last_date : Option String
  words_learned_today : Option ℤ
  daily_goal : Option ℤ
  deriving DecidableEq

/-- DailyLearningManager.get_daily_progress: reset-on-read. today stands for
get_today_date(). Returns the dict that is both returned to the caller and,
in the reset branch, persisted (in the same-date branch the store already
holds it). -/
def get_daily_progress (daily_data : DailyDict) (today : String) : DailyDict :=
  if daily_data.last_date.getD "" = today then daily_data
  else ⟨some today, some 0, some (daily_data.daily_goal.getD 5)⟩

/-- DailyLearningManager.mark_word_learned_today: reads with reset-on-read,
then increments words_learned_today and persists. The Python increment on a
dict missing that key raises KeyError, caught by the surrounding try/except
after get_daily_progress already persisted its result. Returns the persisted
dict. -/
def mark_word_learned_today (daily_data : DailyDict) (today : String) :
    DailyDict :=
  let dd := get_daily_progress daily_data today
  match dd.words_learned_today with
  | some n => { dd with words_learned_today := some (n + 1) }
  | none => dd

/-! ## main.py: the grading flow -/

/-- The slice of per-user storage that the grading flow touches: the graded
word's progress dict and the daily_learning dict. -/
structure UserStore where
  word : WordProgress
  daily : DailyDict
  deriving DecidableEq

/-- The storage effect of main.py grade_word: read the word progress, run
calculate_next_review, write the updated progress back, re-read the word
progress (after the write), and only if that re-read record has status new
and grade is at least 3 call mark_word_learned_today. -/
def grade_word (st : UserStore) (grade : ℤ) (current_time : ℤ)
    (today : String) : UserStore :=
  let word_progress := st.word
  let updated_progress := (calculate_next_review word_progress grade current_time).1
  let st1 : UserStore := { st with word := updated_progress }
  let word_progress_before := st1.word
  if word_progress_before.status = some "new" ∧ 3 ≤ grade then
    { st1 with daily := mark_word_learned_today st1.daily today }
  else
    st1

/-! ## Helper lemmas -/

/-- pyRound never rounds below the floor. -/
theorem floor_le_pyRound (x : ℚ) : ⌊x⌋ ≤ pyRound x := by
  unfold pyRound
  dsimp only
  split_ifs <;> omega

/-- An integer lower bound on the argument is a lower bound on pyRound. -/
theorem le_pyRound (n : ℤ) (x : ℚ) (h : (n : ℚ) ≤ x) : n ≤ pyRound x :=
  le_trans (Int.le_floor.mpr h) (floor_le_pyRound x)

/-- Rounding to two decimals preserves the 1.3 lower bound, because 1.3 is
exactly representable in two decimals. -/
theorem round2_ge_min_ef (x : ℚ) (h : (13/10 : ℚ) ≤ x) :
    (13/10 : ℚ) ≤ round2 x := by
  have h130 : (130 : ℤ) ≤ pyRound (x * 100) := by
    apply le_pyRound
    push_cast
    linarith
  have h130q : (130 : ℚ) ≤ (pyRound (x * 100) : ℚ) := by exact_mod_cast h130
  unfold round2
  linarith

/-! ## Claim theorems -/

/-- Claim C6: for every learning state, a grade below 3 makes
calculate_next_review return repetition 0, interval_days 1 and status
learning. -/
theorem lapse_resets (p : WordProgress) (grade current_time : ℤ)
    (h : grade < 3) :
    (calculate_next_review p grade current_time).1.repetition = some 0 ∧
    (calculate_next_review p grade current_time).1.interval_days = some 1 ∧
    (calculate_next_review p grade current_time).1.status = some "learning" := by
  simp only [calculate_next_review]
  rw [if_pos h]
  exact ⟨rfl, rfl, rfl⟩

/-- Witness for lapse_resets at the initial word record, grade 2, time 0. -/
theorem lapse_resets_witness :
    (calculate_next_review initWordRecord 2 0).1.repetition = some 0 ∧
    (calculate_next_review initWordRecord 2 0).1.interval_days = some 1 ∧
    (calculate_next_review initWordRecord 2 0).1.status = some "learning" :=
  lapse_resets initWordRecord 2 0 (by norm_num)

/-- Claim C7: for every learning state and grade between 0 and 5, the
easiness factor stored by calculate_next_review, after rounding to two
decimals, is at least 1.3 (= MIN_EF). -/
theorem ef_floor (p : WordProgress) (grade current_time : ℤ)
    (_h0 : 0 ≤ grade) (_h5 : grade ≤ 5) :
    MIN_EF ≤ ((calculate_next_review p grade current_time).1.ef).getD 0 := by
  have hef : ((calculate_next_review p grade current_time).1.ef).getD 0 =
      round2 (max ((p.ef.getD INITIAL_EF) +
        (0.1 - (5 - (grade : ℚ)) * (0.08 + (5 - (grade : ℚ)) * 0.02))) MIN_EF) := by
    simp only [calculate_next_review]
    rfl
  rw [hef]
  have : MIN_EF = (13/10 : ℚ) := by norm_num [MIN_EF]
  rw [this]
  apply round2_ge_min_ef
  rw [← this]
  exact le_max_right _ _

/-- Witness for ef_floor at the initial word record, grade 0, time 0. -/
theorem ef_floor_witness :
    MIN_EF ≤ ((calculate_next_review initWordRecord 0 0).1.ef).getD 0 :=
  ef_floor initWordRecord 0 0 (by norm_num) (by norm_num)

/-- Claim C5: with repetition at least 2 and grade at least 3 (and the
interval invariant interval_days at least 1 of the data model), the interval
returned by calculate_next_review is at least the previous interval,
whenever the updated easiness factor is at least 1. -/
theorem interval_monotone (p : WordProgress) (grade current_time : ℤ)
    (hrep : 2 ≤ p.repetition.getD 0) (hgrade : 3 ≤ grade)
    (hprev : 1 ≤ p.interval_days.getD 6)
    (hef : 1 ≤ max ((p.ef.getD INITIAL_EF) +
      (0.1 - (5 - (grade : ℚ)) * (0.08 + (5 - (grade : ℚ)) * 0.02))) MIN_EF) :
    p.interval_days.getD 6 ≤ (calculate_next_review p grade current_time).2 := by
  simp only [calculate_next_review]
  rw [if_neg (by omega)]
  rw [if_neg (by omega), if_neg (by omega)]
  apply le_pyRound
  have hprevq : (1 : ℚ) ≤ (p.interval_days.getD 6 : ℚ) := by exact_mod_cast hprev
  calc ((p.interval_days.getD 6 : ℤ) : ℚ)
      = (p.interval_days.getD 6 : ℚ) * 1 := by ring
    _ ≤ (p.interval_days.getD 6 : ℚ) *
        max ((p.ef.getD INITIAL_EF) +
          (0.1 - (5 - (grade : ℚ)) * (0.08 + (5 - (grade : ℚ)) * 0.02))) MIN_EF := by
        apply mul_le_mul_of_nonneg_left hef
        linarith

/-- Witness for interval_monotone: repetition 2, interval 6, EF 2.5,
grade 4, where the returned interval is 15. -/
theorem interval_monotone_witness :
    (2 : ℤ) ≤ (⟨some 2.5, some 2, some 6, none, none, none, some "learning"⟩ :
      WordProgress).repetition.getD 0 ∧
    ((⟨some 2.5, some 2, some 6, none, none, none, some "learning"⟩ :
      WordProgress).interval_days.getD 6 ≤
      (calculate_next_review
        ⟨some 2.5, some 2, some 6, none, none, none, some "learning"⟩ 4 1000).2) :=
  ⟨by norm_num, interval_monotone _ 4 1000 (by norm_num) (by norm_num)
    (by norm_num) (by rw [le_max_iff]; right; norm_num [MIN_EF])⟩

/-- Claim C3: the scenario D walk through the delivery queue. From the free
session with empty queue, offering w1 delivers now and sets busy; offering
w2 queues it; answering returns w2 with the user still busy and the queue
empty; answering again returns none and frees the user. -/
theorem scenario_d :
    add_to_queue initSession "w1" = (⟨true, []⟩, true) ∧
    add_to_queue ⟨true, []⟩ "w2" = (⟨true, ["w2"]⟩, false) ∧
    mark_answered ⟨true, ["w2"]⟩ = (⟨true, []⟩, some "w2") ∧
    mark_answered ⟨true, []⟩ = (⟨false, []⟩, none) := by
  refine ⟨?_, ?_, ?_, ?_⟩ <;>
    simp [add_to_queue, add_to_queue_f, mark_answered, get_next_from_queue,
      initSession]

/-- Claim C10: a word whose next_review_ts is 0 or absent is due, and
get_due_words lists it, at any nonnegative current time. -/
theorem new_word_is_due (current_time : ℤ) (hnow : 0 ≤ current_time)
    (p : WordProgress)
    (hp : p.next_review_ts = none ∨ p.next_review_ts = some 0)
    (words_progress : List (String × WordProgress)) (word_id : String)
    (hmem : (word_id, p) ∈ words_progress) :
    is_due p current_time = true ∧
    word_id ∈ get_due_words words_progress current_time := by
  have hts : p.next_review_ts.getD 0 = 0 := by
    rcases hp with h | h <;> simp [h]
  constructor
  · simp [is_due, hts, hnow]
  · unfold get_due_words
    apply List.mem_map.mpr
    refine ⟨(word_id, p), ?_, rfl⟩
    apply List.mem_filter.mpr
    exact ⟨hmem, by simp [hts, hnow]⟩

/-- Witness for new_word_is_due: the freshly initialized word record in a
one-word progress dict at time 5. -/
theorem new_word_is_due_witness :
    is_due initWordRecord 5 = true ∧
    "w1" ∈ get_due_words [("w1", initWordRecord)] 5 :=
  new_word_is_due 5 (by norm_num) initWordRecord (Or.inr rfl)
    [("w1", initWordRecord)] "w1" (by simp)

/-- Claim C9: reading the daily counter twice returns the same learned
count; a read on a day different from the stored date key resets the dict to
zero learned with the date key set to today, preserving a stored goal (and
defaulting an absent goal to 5). -/
theorem daily_reset_on_read (d : DailyDict) (today : String) :
    (get_daily_progress (get_daily_progress d today) today).words_learned_today
      = (get_daily_progress d today).words_learned_today ∧
    (d.last_date.getD "" ≠ today →
      get_daily_progress d today =
        ⟨some today, some 0, some (d.daily_goal.getD 5)⟩) := by
  constructor
  · unfold get_daily_progress
    split_ifs with h1 h2 <;> simp_all
  · intro hne
    unfold get_daily_progress
    rw [if_neg hne]

/-- Witness for daily_reset_on_read: a full counter from 2024-01-01 read on
2024-01-02 resets to zero with the goal preserved. -/
theorem daily_reset_on_read_witness :
    get_daily_progress ⟨some "2024-01-01", some 5, some 5⟩ "2024-01-02" =
      ⟨some "2024-01-02", some 0, some 5⟩ :=
  (daily_reset_on_read ⟨some "2024-01-01", some 5, some 5⟩ "2024-01-02").2
    (by simp)

/-- Every operation other than force_add_to_queue reestablishes the queue
invariant, with no assumption on the incoming session: offering always
leaves the user busy, answering frees the user only on an empty queue, and
reset empties the queue. -/
theorem applyQOp_inv (s : Session) (op : QOp)
    (hop : ∀ w, op ≠ QOp.force w) : queueInv (applyQOp s op) := by
  cases op with
  | offer w =>
    unfold applyQOp add_to_queue add_to_queue_f queueInv
    by_cases hbusy : s.waiting_for_answer
    · by_cases hmem : w ∈ s.due_queue <;> simp [hbusy, hmem]
    · simp [hbusy]
  | force w => exact absurd rfl (hop w)
  | answered =>
    unfold applyQOp mark_answered get_next_from_queue queueInv
    cases h : s.due_queue with
    | nil => simp [h]
    | cons a t =>
      simp only [h]
      split_ifs <;> simp
  | reset =>
    unfold applyQOp clear_queue queueInv
    simp

/-- The invariant holds along every prefix of a force-free operation
sequence, from any session satisfying it. -/
theorem queueInv_run_aux (ops : List QOp) (s : Session) (n : ℕ)
    (hs : queueInv s) (hops : ∀ w, QOp.force w ∉ ops) :
    queueInv (runQOps s (ops.take n)) := by
  induction ops generalizing s n with
  | nil => simpa [runQOps] using hs
  | cons op rest ih =>
    cases n with
    | zero => simpa [runQOps] using hs
    | succ m =>
      rw [List.take_succ_cons]
      show queueInv (runQOps (applyQOp s op) (rest.take m))
      apply ih
      · apply applyQOp_inv
        intro w hw
        exact hops w (hw ▸ List.mem_cons_self op rest)
      · intro w hw
        exact hops w (List.mem_cons_of_mem op hw)

/-- Claim C4 counterexample: a single force_add_to_queue from the free,
empty-queue state leaves a non-empty pending queue while the user is not
busy, so the invariant fails after that step. -/
theorem queue_invariant_counterexample :
    (runQOps initSession [QOp.force "w1"]).due_queue = ["w1"] ∧
    (runQOps initSession [QOp.force "w1"]).waiting_for_answer = false ∧
    ¬ queueInv (runQOps initSession [QOp.force "w1"]) := by
  refine ⟨rfl, rfl, fun h => ?_⟩
  have h2 := h (by simp [runQOps, applyQOp, force_add_to_queue, initSession])
  simp [runQOps, applyQOp, force_add_to_queue, initSession] at h2

/-- Claim C4 (amended): along every sequence of add_to_queue, mark_answered
and clear_queue operations from the free state with an empty queue — that
is, excluding force_add_to_queue — the pending queue is non-empty only
while the user is busy, after every step. -/
theorem queue_invariant_no_force (ops : List QOp)
    (hops : ∀ w, QOp.force w ∉ ops) (n : ℕ) :
    queueInv (runQOps initSession (ops.take n)) :=
  queueInv_run_aux ops initSession n (by simp [initSession, queueInv]) hops

/-- Witness for queue_invariant_no_force: two offers and an answer, stopped
after the second step. -/
theorem queue_invariant_no_force_witness :
    queueInv (runQOps initSession
      ([QOp.offer "w1", QOp.offer "w2", QOp.answered].take 2)) :=
  queue_invariant_no_force [QOp.offer "w1", QOp.offer "w2", QOp.answered]
    (by intro w; simp) 2

/-- Claim C8 counterexample: with the store failing on the initial read,
offering w2 to a busy user with an empty queue returns True (deliver now)
with no error, even though the same offer against a healthy store would
queue the word and return False. -/
theorem offer_store_failure_counterexample :
    add_to_queue_f .onRead ⟨true, []⟩ "w2" = (⟨true, []⟩, true) ∧
    (add_to_queue ⟨true, []⟩ "w2").2 = false := by
  constructor
  · rfl
  · simp [add_to_queue, add_to_queue_f]

/-- Claim C8 (amended): a store failure inside add_to_queue leaves the
persisted session unchanged, but the error is swallowed rather than
propagated: a failure on the initial read makes the call return True
(deliver now) whatever the session was. -/
theorem offer_store_failure_fallback (s : Session) (word_id : String) :
    add_to_queue_f .onRead s word_id = (s, true) ∧
    (add_to_queue_f .onWrite s word_id).1 = s := by
  constructor
  · rfl
  · unfold add_to_queue_f
    split_ifs <;> rfl

/-- Claim C2 counterexample: at the out-of-range grade 6, calculate_next_review
does not reject: it returns a fully formed updated record (EF raised to 2.66,
repetition advanced to 1) and the interval 1. -/
theorem invalid_grade_counterexample :
    calculate_next_review initWordRecord 6 1000 =
      (⟨some 2.66, some 1, some 1, some 87400, some 6, some 1000,
        some "learning"⟩, 1) := by
  norm_num [calculate_next_review, initWordRecord, INITIAL_EF, MIN_EF,
    SECONDS_PER_DAY, round2, pyRound, Int.floor_eq_iff]

/-- Claim C2 (amended): calculate_next_review performs no grade validation:
a grade outside 0 to 5 is processed by the same SM-2 formula and yields an
updated record, which stores the invalid grade as last_grade and the call
time as last_review_ts. -/
theorem invalid_grade_processed (p : WordProgress) (grade current_time : ℤ)
    (_h : grade < 0 ∨ 5 < grade) :
    (calculate_next_review p grade current_time).1.last_grade = some grade ∧
    (calculate_next_review p grade current_time).1.last_review_ts =
      some current_time := by
  simp [calculate_next_review]

/-- Witness for invalid_grade_processed at grade 6. -/
theorem invalid_grade_processed_witness :
    (calculate_next_review initWordRecord 6 1000).1.last_grade = some 6 ∧
    (calculate_next_review initWordRecord 6 1000).1.last_review_ts =
      some 1000 :=
  invalid_grade_processed initWordRecord 6 1000 (Or.inr (by norm_num))

/-- Claim C1: the grading flow re-reads the word progress only after
writing the updated record, whose status is always learning or review,
never new; so the condition guarding mark_word_learned_today is false for
every store, grade and time, and the daily counter is never changed by
grade_word. The claim says it increases by one for a new word graded at
least 3. -/
theorem grade_word_never_marks (st : UserStore) (grade current_time : ℤ)
    (today : String) :
    (grade_word st grade current_time today).daily = st.daily ∧
    (grade_word st grade current_time today).word =
      (calculate_next_review st.word grade current_time).1 := by
  unfold grade_word
  have hst : (calculate_next_review st.word grade current_time).1.status ≠
      some "new" := by
    simp only [calculate_next_review]
    split_ifs <;> simp
  rw [if_neg (by intro h; exact hst h.1)]
  exact ⟨rfl, rfl⟩

end LearnIt
